import Mathlib

/-!
Shallow embedding of the bunman core (cross-platform service manager):
the batch execution engine (src/core/batch), the systemd status parser and
unit generator, the launchd backend (plist generation and launchctl list
parsing), the config validator's restart-policy gate, and the systemd
service-name helpers.

Strings are modelled as lists of characters (`Str`); JavaScript numbers are
modelled as `Int` where the program uses them integrally and as `Rat` where
fractional values flow (the memory figure parsed from systemctl output).
JavaScript `NaN`/`undefined` results of a numeric parse are both modelled as
`Option.none`; thrown exceptions are modelled as `Except.error` carrying the
message string.
-/

namespace Bunman

/-- Strings are modelled as lists of characters. -/
abbrev Str := List Char

/-- Coerce a Lean string literal to the character-list model. -/
def str (s : String) : Str := s.data

/-- Whitespace test used by trim / splitting (the characters relevant here). -/
def isWs (c : Char) : Bool := c = ' ' || c = '\t' || c = '\n' || c = '\r'

/-- JavaScript String.prototype.trim on the character-list model. -/
def trimStr (s : Str) : Str :=
  ((s.dropWhile isWs).reverse.dropWhile isWs).reverse

/-- JavaScript String.prototype.split with a single-character separator:
splitting the empty string yields one empty field. -/
def splitOnChar (sep : Char) : Str → List Str
  | [] => [[]]
  | c :: t =>
    let r := splitOnChar sep t
    if c = sep then [] :: r
    else
      match r with
      | h :: t2 => (c :: h) :: t2
      | [] => [[c]]

/-- Maximal runs of non-whitespace characters (helper for split on a
whitespace regex). -/
def wsTokensAux (cur : Str) : Str → List Str
  | [] => if cur.isEmpty then [] else [cur.reverse]
  | c :: t =>
    if isWs c then
      if cur.isEmpty then wsTokensAux [] t else cur.reverse :: wsTokensAux [] t
    else wsTokensAux (c :: cur) t

/-- JavaScript line.trim().split(on a whitespace-run regex): a blank line
yields a single empty token, otherwise the maximal non-whitespace runs. -/
def splitWsTrim (line : Str) : List Str :=
  let t := trimStr line
  if t.isEmpty then [[]] else wsTokensAux [] t

/-- JavaScript String.prototype.includes: does needle occur contiguously in
hay (an empty needle always occurs). -/
def strContains (hay needle : Str) : Bool :=
  match hay with
  | [] => needle.isEmpty
  | _ :: t => needle.isPrefixOf hay || strContains t needle

/-- JavaScript String.prototype.startsWith. -/
def startsWith (s pre : Str) : Bool := pre.isPrefixOf s

/-- The leading run of decimal digits. -/
def takeDigits (s : Str) : Str := s.takeWhile (fun c => c.isDigit)

/-- Value of a digit string (most significant first). -/
def digitsToNat (ds : Str) : Nat := ds.foldl (fun a c => a * 10 + (c.toNat - 48)) 0

/-- JavaScript parseInt(s, 10): skip leading whitespace, optional sign, then a
nonempty digit run; none models NaN. -/
def parseIntJS (s : Str) : Option Int :=
  let s1 := s.dropWhile isWs
  match s1 with
  | '-' :: t =>
    let d := takeDigits t
    if d.isEmpty then none else some (-(digitsToNat d : Int))
  | '+' :: t =>
    let d := takeDigits t
    if d.isEmpty then none else some (digitsToNat d)
  | _ =>
    let d := takeDigits s1
    if d.isEmpty then none else some (digitsToNat d)

/-- Digit-level part of JavaScript parseFloat on the inputs it receives here
(runs of digits and dots captured by a regex): the longest valid decimal
prefix as (all significant digits, number of fraction digits); none models
NaN. -/
def parseFloatParts (s : Str) : Option (Nat × Nat) :=
  let intPart := takeDigits s
  let rest := s.drop intPart.length
  match rest with
  | '.' :: t =>
    let fracPart := takeDigits t
    if intPart.isEmpty && fracPart.isEmpty then none
    else some (digitsToNat intPart * 10 ^ fracPart.length + digitsToNat fracPart,
      fracPart.length)
  | _ => if intPart.isEmpty then none else some (digitsToNat intPart, 0)

/-- JavaScript parseFloat as an exact rational; powers of two scale exactly in
binary floating point, so the rational model is exact for the multiplications
the program performs on this value. -/
def parseFloatQ (s : Str) : Option Rat :=
  (parseFloatParts s).map (fun p => (p.1 : Rat) / (10 : Rat) ^ p.2)

/-- Rendering of an integral JavaScript number in a template literal. -/
def intStr (n : Int) : Str := (toString n).data

/-- Service lifecycle states (src/types/service.ts ServiceState). -/
inductive ServiceState where
  | active
  | inactive
  | failed
  | activating
  | deactivating
  | unknown
deriving DecidableEq, BEq, Repr

/-- Service status information (src/types/service.ts ServiceStatus). Numeric
fields the parsers leave unset stay none; a NaN number is modelled as none. -/
structure ServiceStatus where
  name : Str
  state : ServiceState
  pid : Option Int := none
  memory : Option Rat := none
  cpu : Option Rat := none
  uptime : Option Int := none
  restarts : Option Int := none
  exitCode : Option Int := none
  errorText : Option Str := none
deriving DecidableEq, Repr

/-- The Active-line branch chain of parseStatusOutput (core/systemd
controller): substring checks in source order, leaving the state unchanged
when nothing matches. -/
def classifyActive (trimmed : Str) (st : ServiceState) : ServiceState :=
  if strContains trimmed (str "active (running)") then .active
  else if strContains trimmed (str "inactive") then .inactive
  else if strContains trimmed (str "failed") then .failed
  else if strContains trimmed (str "activating") then .activating
  else if strContains trimmed (str "deactivating") then .deactivating
  else st

/-- One attempt of the regex for the since-clause (a nonempty run of
non-semicolon characters after the literal, terminated by a semicolon) at the
start of s. -/
def sinceMatchHere (s : Str) : Option Str :=
  if startsWith s (str "since ") then
    let r := s.drop 6
    let g := r.takeWhile (fun c => c ≠ ';')
    match r.drop g.length with
    | ';' :: _ => if g.isEmpty then none else some g
    | _ => none
  else none

/-- First-match search of the since-clause regex over the line. -/
def sinceSearch : Str → Option Str
  | [] => none
  | c :: t =>
    match sinceMatchHere (c :: t) with
    | some g => some g
    | none => sinceSearch t

/-- One attempt of the Main-PID regex (literal, optional whitespace, a
nonempty digit run) at the start of s. -/
def pidMatchHere (s : Str) : Option Nat :=
  if startsWith s (str "Main PID:") then
    let r := (s.drop 9).dropWhile isWs
    let d := takeDigits r
    if d.isEmpty then none else some (digitsToNat d)
  else none

/-- First-match search of the Main-PID regex over the line. -/
def pidSearch : Str → Option Nat
  | [] => none
  | c :: t =>
    match pidMatchHere (c :: t) with
    | some n => some n
    | none => pidSearch t

/-- Is the character in the class of digits and dots. -/
def isDigDot (c : Char) : Bool := c.isDigit || c = '.'

/-- One attempt of the Memory regex (literal, optional whitespace, a nonempty
run of digits and dots, then one of the unit letters K, M, G) at the start of
s: greedy runs here coincide with backtracking search because the character
classes of adjacent regex pieces are disjoint. -/
def memMatchHere (s : Str) : Option (Str × Char) :=
  if startsWith s (str "Memory:") then
    let r := (s.drop 7).dropWhile isWs
    let g := r.takeWhile isDigDot
    match r.drop g.length with
    | u :: _ =>
      if g.isEmpty then none
      else if u = 'K' || u = 'M' || u = 'G' then some (g, u) else none
    | [] => none
  else none

/-- First-match search of the Memory regex over the line. -/
def memSearch : Str → Option (Str × Char)
  | [] => none
  | c :: t =>
    match memMatchHere (c :: t) with
    | some r => some r
    | none => memSearch t

/-- Byte conversion switch on the matched unit letter; the final branch is
the source switch default, which passes the raw value through. -/
def memScale (u : Char) (v : Rat) : Rat :=
  if u = 'K' then v * 1024
  else if u = 'M' then v * 1024 * 1024
  else if u = 'G' then v * 1024 * 1024 * 1024
  else v

/-- The Active-line block of the parseStatusOutput loop body: classify the
state, then derive the uptime from the since clause when the timestamp
parses. The Date machinery is an external call, modelled by the dateParse
oracle (milliseconds since epoch; none for an invalid date) and the current
time now. -/
def applyActive (dateParse : Str → Option Int) (now : Int)
    (trimmed : Str) (acc : ServiceStatus) : ServiceStatus :=
  if startsWith trimmed (str "Active:") then
    let acc1 := { acc with state := classifyActive trimmed acc.state }
    match sinceSearch trimmed with
    | some g =>
      match dateParse g with
      | some t => { acc1 with uptime := some ((now - t).fdiv 1000) }
      | none => acc1
    | none => acc1
  else acc

/-- The Main-PID block of the parseStatusOutput loop body. -/
def applyPid (trimmed : Str) (acc : ServiceStatus) : ServiceStatus :=
  if startsWith trimmed (str "Main PID:") then
    match pidSearch trimmed with
    | some n => { acc with pid := some (n : Int) }
    | none => acc
  else acc

/-- The Memory block of the parseStatusOutput loop body. -/
def applyMem (trimmed : Str) (acc : ServiceStatus) : ServiceStatus :=
  if startsWith trimmed (str "Memory:") then
    match memSearch trimmed with
    | some (g, u) =>
      { acc with memory := (parseFloatQ g).map (memScale u) }
    | none => acc
  else acc

/-- One loop iteration of parseStatusOutput over a line of systemctl status
output: the three guarded blocks in source order on the trimmed line. -/
def statusFold (dateParse : Str → Option Int) (now : Int)
    (acc : ServiceStatus) (line : Str) : ServiceStatus :=
  let trimmed := trimStr line
  applyMem trimmed (applyPid trimmed (applyActive dateParse now trimmed acc))

/-- Parse systemctl status output into a ServiceStatus (core/systemd
controller parseStatusOutput). -/
def parseStatusOutput (dateParse : Str → Option Int) (now : Int)
    (serviceName : Str) (output : Str) : ServiceStatus :=
  (splitOnChar '\n' output).foldl (statusFold dateParse now)
    { name := serviceName, state := .unknown }

/-- Parse launchctl list output into a ServiceStatus
(core/backend/launchd.ts parseListOutput). The pid column is a dash for a
non-running job; JavaScript keeps NaN apart from undefined for a non-numeric
pid token, both modelled here as none. -/
def parseListOutput (serviceName label output : Str) : ServiceStatus :=
  match (splitOnChar '\n' output).find? (fun line => strContains line label) with
  | some line =>
    let parts := splitWsTrim line
    let p0 := parts.headD []
    let pid : Option Int := if p0 = str "-" then none else parseIntJS p0
    let statusCode : Option Int :=
      match parts.get? 1 with
      | some t => parseIntJS t
      | none => none
    let state : ServiceState :=
      if pid.isSome then .active
      else if statusCode = some 0 then .inactive
      else .failed
    { name := serviceName, state := state, pid := pid }
  | none => { name := serviceName, state := .inactive }

/-- Resource limits of a descriptor (src/types/config.ts ResourceLimits);
the program uses these numbers integrally. -/
structure ResourceLimits where
  memory : Option Int := none
  cpu : Option Int := none
  nofile : Option Int := none
  nproc : Option Int := none
deriving DecidableEq, Repr

/-- Normalized app configuration handed to the core
(src/types/config.ts NormalizedAppConfig). The restart policy is kept as the
string the validator admits. -/
structure NormalizedAppConfig where
  cwd : Str
  command : Str
  env : List (Str × Str) := []
  envFile : Option Str := none
  user : Option Str := none
  group : Option Str := none
  description : Str := []
  restart : Str := []
  restartSec : Int := 3
  after : List Str := []
  requires : List Str := []
  limits : ResourceLimits := {}
  serviceName : Str := []
deriving DecidableEq, Repr

/-- The SystemdUnit record built by buildUnit (src/types/systemd.ts shape,
restricted to the fields buildUnit populates; fields it always leaves out,
such as Documentation or ExecStop, are omitted as forever-none). -/
structure SystemdUnit where
  uDescription : Str
  uAfter : Option (List Str)
  uRequires : Option (List Str)
  sType : Str
  sWorkingDirectory : Str
  sExecStart : Str
  sRestart : Str
  sRestartSec : Int
  sEnvironment : Option (List Str)
  sEnvironmentFile : Option Str
  sStandardOutput : Str
  sStandardError : Str
  sUser : Option Str
  sGroup : Option Str
  sMemoryMax : Option Str
  sCPUQuota : Option Str
  sLimitNOFILE : Option Int
  sLimitNPROC : Option Int
  iWantedBy : List Str
deriving DecidableEq, Repr

/-- Render environment variables one per line, escaping double quotes in the
value (core/systemd/generator.ts formatEnvironment). -/
def formatEnvironment (env : List (Str × Str)) : Option (List Str) :=
  if env.length = 0 then none
  else some (env.map (fun kv =>
    kv.1 ++ ('=' :: '"' :: (kv.2.flatMap (fun c =>
      if c = '"' then ['\\', '"'] else [c])) ++ ['"'])))

/-- Build the SystemdUnit structure from the app config
(core/systemd/generator.ts buildUnit). A JavaScript truthiness test guards
the memory and cpu limits (zero is falsy), while the fd and process caps are
passed through untested. -/
def buildUnit (app : NormalizedAppConfig) : SystemdUnit :=
  { uDescription := app.description
  , uAfter := if app.after.length > 0 then some app.after else none
  , uRequires := if app.requires.length > 0 then some app.requires else none
  , sType := str "simple"
  , sWorkingDirectory := app.cwd
  , sExecStart := app.command
  , sRestart := app.restart
  , sRestartSec := app.restartSec
  , sEnvironment := formatEnvironment app.env
  , sEnvironmentFile := app.envFile
  , sStandardOutput := str "journal"
  , sStandardError := str "journal"
  , sUser := app.user
  , sGroup := app.group
  , sMemoryMax := app.limits.memory.bind (fun m =>
      if m = 0 then none else some (intStr m ++ str "M"))
  , sCPUQuota := app.limits.cpu.bind (fun c =>
      if c = 0 then none else some (intStr c ++ str "%"))
  , sLimitNOFILE := app.limits.nofile
  , sLimitNPROC := app.limits.nproc
  , iWantedBy := [str "multi-user.target"] }

/-- Render an optional field as zero or one pushed lines. -/
def optLine (f : α → Str) : Option α → List Str
  | some v => [f v]
  | none => []

/-- Join a list of names with single spaces (Array.prototype.join). -/
def joinSpace : List Str → Str
  | [] => []
  | [x] => x
  | x :: y :: t => x ++ ' ' :: joinSpace (y :: t)

/-- The lines pushed by serializeUnit (core/systemd/generator.ts), in push
order; the serialized text joins them with newlines. -/
def serializeUnitSections (u : SystemdUnit) : List Str :=
  [str "[Unit]", str "Description=" ++ u.uDescription]
  ++ optLine (fun l => str "After=" ++ joinSpace l) u.uAfter
  ++ optLine (fun l => str "Requires=" ++ joinSpace l) u.uRequires
  ++ [[]]
  ++ [str "[Service]", str "Type=" ++ u.sType,
      str "WorkingDirectory=" ++ u.sWorkingDirectory,
      str "ExecStart=" ++ u.sExecStart,
      str "Restart=" ++ u.sRestart,
      str "RestartSec=" ++ intStr u.sRestartSec]
  ++ (match u.sEnvironment with
      | some envs => envs.map (fun e => str "Environment=" ++ e)
      | none => [])
  ++ optLine (fun f => str "EnvironmentFile=" ++ f) u.sEnvironmentFile
  ++ [str "StandardOutput=" ++ u.sStandardOutput,
      str "StandardError=" ++ u.sStandardError]
  ++ optLine (fun v => str "User=" ++ v) u.sUser
  ++ optLine (fun v => str "Group=" ++ v) u.sGroup
  ++ optLine (fun v => str "MemoryMax=" ++ v) u.sMemoryMax
  ++ optLine (fun v => str "CPUQuota=" ++ v) u.sCPUQuota
  ++ optLine (fun v => str "LimitNOFILE=" ++ intStr v) u.sLimitNOFILE
  ++ optLine (fun v => str "LimitNPROC=" ++ intStr v) u.sLimitNPROC
  ++ [[]]
  ++ [str "[Install]", str "WantedBy=" ++ joinSpace u.iWantedBy]
  ++ [[]]

/-- Generate a systemd unit file from the app configuration
(core/systemd/generator.ts generateUnitFile). -/
def generateUnitFile (app : NormalizedAppConfig) : Str :=
  List.intercalate (str "\n") (serializeUnitSections (buildUnit app))

/-- The unit lines beginning with a given key, at the granularity of the
individual pushes the serializer performs. -/
def limitLines (key : Str) (app : NormalizedAppConfig) : List Str :=
  (serializeUnitSections (buildUnit app)).filter (fun s => startsWith s key)

/-- The double-quote character. -/
def dquote : Char := '"'

/-- The single-quote character (code 39). -/
def squote : Char := Char.ofNat 39

/-- Replace every occurrence of a character by a replacement string
(String.prototype.replace with a global single-character pattern). -/
def replaceChar (c : Char) (rep : Str) (s : Str) : Str :=
  s.flatMap (fun x => if x = c then rep else [x])

/-- Escape XML special characters (core/backend/launchd.ts escapeXml): the
five replacements run in sequence; no later pattern matches text a former
one produced. -/
def escapeXml (s : Str) : Str :=
  replaceChar squote (str "&apos;")
    (replaceChar dquote (str "&quot;")
      (replaceChar '>' (str "&gt;")
        (replaceChar '<' (str "&lt;")
          (replaceChar '&' (str "&amp;") s))))

/-- The quote-aware command splitter (core/backend/launchd.ts parseCommand):
a single inQuotes flag toggled by either quote character, tokens flushed on
unquoted spaces, quote characters themselves dropped. -/
def parseCommandAux (cur : Str) (inQuotes : Bool) : Str → List Str
  | [] => if cur.isEmpty then [] else [cur.reverse]
  | c :: rest =>
    if c = dquote || c = squote then parseCommandAux cur (!inQuotes) rest
    else if c = ' ' && !inQuotes then
      if cur.isEmpty then parseCommandAux [] inQuotes rest
      else cur.reverse :: parseCommandAux [] inQuotes rest
    else parseCommandAux (c :: cur) inQuotes rest

/-- Parse a command line into program plus argument tokens. -/
def parseCommand (command : Str) : List Str := parseCommandAux [] false command

/-- Property-list values as the serializer distinguishes them. -/
inductive PlistValue where
  | pstr : Str → PlistValue
  | pint : Int → PlistValue
  | pbool : Bool → PlistValue
  | parr : List PlistValue → PlistValue
  | pdict : List (Str × PlistValue) → PlistValue
deriving Repr

/-- Indentation by tab characters. -/
def tabs (n : Nat) : Str := List.replicate n '\t'

mutual

/-- Serialize one value to plist XML (core/backend/launchd.ts
serializePlistValue): strings are XML-escaped, numbers render inside an
integer element, booleans as self-closing tags, arrays and dicts recurse
with one more level of indentation; dict keys are not escaped. -/
def serializePlistValue (v : PlistValue) (indent : Nat) : Str :=
  match v with
  | .pstr s => tabs indent ++ str "<string>" ++ escapeXml s ++ str "</string>"
  | .pint n => tabs indent ++ str "<integer>" ++ intStr n ++ str "</integer>"
  | .pbool b => tabs indent ++ (if b then str "<true/>" else str "<false/>")
  | .parr items =>
    List.intercalate (str "\n")
      ((tabs indent ++ str "<array>") ::
        serializePlistItems items (indent + 1) ++ [tabs indent ++ str "</array>"])
  | .pdict entries =>
    List.intercalate (str "\n")
      ((tabs indent ++ str "<dict>") ::
        serializePlistEntries entries indent ++ [tabs indent ++ str "</dict>"])

/-- Serialize the items of an array value. -/
def serializePlistItems (l : List PlistValue) (indent : Nat) : List Str :=
  match l with
  | [] => []
  | v :: rest => serializePlistValue v indent :: serializePlistItems rest indent

/-- Serialize the entries of a dict value: a key line then the value at one
more level of indentation. -/
def serializePlistEntries (l : List (Str × PlistValue)) (indent : Nat) : List Str :=
  match l with
  | [] => []
  | (k, v) :: rest =>
    (tabs indent ++ '\t' :: (str "<key>" ++ k ++ str "</key>")) ::
      serializePlistValue v (indent + 1) :: serializePlistEntries rest indent

end

/-- Serialize a top-level plist object to XML text (core/backend/launchd.ts
serializePlist): header lines, the entries of the root dict at one level of
indentation, closing tags, all joined by newlines with a trailing newline. -/
def serializePlist (entries : List (Str × PlistValue)) : Str :=
  List.intercalate (str "\n")
    ([str "<?xml version=\x221.0\x22 encoding=\x22UTF-8\x22?>",
      str "<!DOCTYPE plist PUBLIC \x22-//Apple//DTD PLIST 1.0//EN\x22 \x22http://www.apple.com/DTDs/PropertyList-1.0.dtd\x22>",
      str "<plist version=\x221.0\x22>",
      str "<dict>"]
     ++ (entries.flatMap (fun kv =>
          [('\t' :: (str "<key>" ++ kv.1 ++ str "</key>")),
            serializePlistValue kv.2 1]))
     ++ [str "</dict>", str "</plist>"]) ++ str "\n"

/-- Generate the launchd plist for a service (core/backend/launchd.ts
generateConfig). The instance field logDir (derived from the home directory
at construction) is a parameter; the entries follow JavaScript object
insertion order, and truthiness tests guard the env map, the memory and
file-descriptor limits. -/
def launchdGenerateConfig (logDir serviceName : Str)
    (app : NormalizedAppConfig) : Str :=
  let label := str "com.bunman." ++ serviceName
  let logFile := logDir ++ '/' :: serviceName ++ str ".log"
  let errorLogFile := logDir ++ '/' :: serviceName ++ str ".error.log"
  let commandParts := parseCommand app.command
  let base : List (Str × PlistValue) :=
    [(str "Label", .pstr label),
     (str "ProgramArguments", .parr (commandParts.map .pstr)),
     (str "WorkingDirectory", .pstr app.cwd),
     (str "RunAtLoad", .pbool true),
     (str "StandardOutPath", .pstr logFile),
     (str "StandardErrorPath", .pstr errorLogFile)]
  let withEnv := base ++
    (if app.env.length > 0 then
      [(str "EnvironmentVariables", .pdict (app.env.map (fun kv => (kv.1, .pstr kv.2))))]
     else [])
  let withKeep := withEnv ++
    (if app.restart = str "always" then [(str "KeepAlive", .pbool true)]
     else if app.restart = str "on-failure" then
       [(str "KeepAlive", .pdict [(str "SuccessfulExit", .pbool false)])]
     else [])
  let hardLimits : List (Str × PlistValue) :=
    (match app.limits.memory with
     | some m => if m = 0 then [] else [(str "MemoryLimit", .pint (m * 1024 * 1024))]
     | none => [])
    ++ (match app.limits.nofile with
        | some n => if n = 0 then [] else [(str "NumberOfFiles", .pint n)]
        | none => [])
  let withHard := withKeep ++
    (if hardLimits.length > 0 then [(str "HardResourceLimits", .pdict hardLimits)] else [])
  serializePlist (withHard
    ++ (match app.user with | some u => [(str "UserName", PlistValue.pstr u)] | none => [])
    ++ (match app.group with | some g => [(str "GroupName", PlistValue.pstr g)] | none => []))

/-- The restart policies the config validator admits
(core/config/validator.ts VALID_RESTART_POLICIES). -/
def VALID_RESTART_POLICIES : List Str :=
  [str "always", str "on-failure", str "on-abnormal", str "no"]

/-- The validator's membership test on the restart field
(core/config/validator.ts validateAppConfig, Array.prototype.includes): a
descriptor whose restart value fails this test is rejected with a
ConfigError. -/
def isValidRestartPolicy (s : Str) : Bool :=
  VALID_RESTART_POLICIES.contains s

/-- Derive the service identifier from an app name
(core/systemd paths getServiceName): the configured name prefixed. -/
def getServiceName (appName pfx : Str) : Str := pfx ++ appName

/-- Recover the app name from a service identifier
(core/systemd paths getAppName): strip the leading prefix when present. -/
def getAppName (serviceName pfx : Str) : Str :=
  if startsWith serviceName pfx then serviceName.drop pfx.length
  else serviceName

/-- Result of a batch operation on a single service (core/batch BatchResult).
The skip record carries no error property; error is none there. -/
structure BatchResult where
  name : Str
  success : Bool
  skipped : Bool
  error : Option Str := none
deriving DecidableEq, Repr

/-- Summary of a batch operation (core/batch BatchSummary). -/
structure BatchSummary where
  total : Nat
  succeeded : Nat
  failed : Nat
  skipped : Nat
  results : List BatchResult
deriving DecidableEq, Repr

/-- Summarize batch results (core/batch summarizeBatch): three filter
counts over the accumulated list. -/
def summarizeBatch (results : List BatchResult) : BatchSummary :=
  { total := results.length
  , succeeded := (results.filter (fun r => r.success)).length
  , failed := (results.filter (fun r => !r.success && !r.skipped)).length
  , skipped := (results.filter (fun r => r.skipped)).length
  , results := results }

/-- The try block of one executeBatch iteration: run the caller-supplied
operation, then fetch status and test membership of its state in the
success-state set; any error thrown by either call is caught and recorded
with its message. -/
def batchTry (exec : Str → NormalizedAppConfig → Except Str Unit)
    (getStatus : Str → Except Str ServiceStatus)
    (successStates : List ServiceState)
    (name : Str) (app : NormalizedAppConfig) : BatchResult :=
  match (do
      exec name app
      getStatus app.serviceName : Except Str ServiceStatus) with
  | .ok status =>
    if successStates.contains status.state then
      { name := name, success := true, skipped := false }
    else
      { name := name, success := false, skipped := false }
  | .error msg =>
    { name := name, success := false, skipped := false, error := some msg }

/-- One executeBatch iteration: the optional skip predicate runs outside the
try block, so an error it throws rejects the whole batch; a true answer
records a skip without invoking the operation. -/
def batchStep (shouldSkip : Option (Str → NormalizedAppConfig → Except Str Bool))
    (exec : Str → NormalizedAppConfig → Except Str Unit)
    (getStatus : Str → Except Str ServiceStatus)
    (successStates : List ServiceState)
    (svc : Str × NormalizedAppConfig) : Except Str BatchResult :=
  match shouldSkip with
  | some f =>
    match f svc.1 svc.2 with
    | .error e => .error e
    | .ok true => .ok { name := svc.1, success := false, skipped := true }
    | .ok false => .ok (batchTry exec getStatus successStates svc.1 svc.2)
  | none => .ok (batchTry exec getStatus successStates svc.1 svc.2)

/-- The sequential result-accumulating loop: each service in input order, an
uncaught error aborting the remainder. -/
def mapExcept (f : α → Except Str β) : List α → Except Str (List β)
  | [] => .ok []
  | x :: xs =>
    match f x with
    | .error e => .error e
    | .ok y =>
      match mapExcept f xs with
      | .error e => .error e
      | .ok ys => .ok (y :: ys)

/-- The default success-state set (core/batch executeBatch). -/
def defaultSuccessStates : List ServiceState := [.active, .activating]

/-- Execute a batch operation on multiple services (core/batch
executeBatch): run the per-service step over the list in order and summarize
the accumulated results. -/
def executeBatch (services : List (Str × NormalizedAppConfig))
    (shouldSkip : Option (Str → NormalizedAppConfig → Except Str Bool))
    (exec : Str → NormalizedAppConfig → Except Str Unit)
    (getStatus : Str → Except Str ServiceStatus)
    (successStatesOpt : Option (List ServiceState)) : Except Str BatchSummary :=
  match mapExcept
      (batchStep shouldSkip exec getStatus (successStatesOpt.getD defaultSuccessStates))
      services with
  | .ok results => .ok (summarizeBatch results)
  | .error e => .error e

/-- Demonstration descriptor for witnesses. -/
def demoApp : NormalizedAppConfig :=
  { cwd := str "/srv/api"
  , command := str "bun run start"
  , description := str "bunman service: api"
  , restart := str "always"
  , serviceName := str "bunman-api" }

/-- Demonstration operation that always succeeds. -/
def demoExec : Str → NormalizedAppConfig → Except Str Unit :=
  fun _ _ => .ok ()

/-- Demonstration status fetch reporting an active service. -/
def demoStatus : Str → Except Str ServiceStatus :=
  fun _ => .ok { name := str "bunman-api", state := .active }

/-- The summary the demonstration two-service batch computes. -/
def demoSummaryTwo : BatchSummary :=
  { total := 2, succeeded := 2, failed := 0, skipped := 0
  , results :=
      [{ name := str "api", success := true, skipped := false },
       { name := str "db", success := true, skipped := false }] }

/-- The demonstration two-service batch input. -/
def demoServicesTwo : List (Str × NormalizedAppConfig) :=
  [(str "api", demoApp), (str "db", demoApp)]

/-- A descriptor whose file-descriptor cap is zero. -/
def zeroNofileApp : NormalizedAppConfig :=
  { cwd := str "/srv/api"
  , command := str "bun run start"
  , description := str "bunman service: api"
  , restart := str "always"
  , serviceName := str "bunman-api"
  , limits := { nofile := some 0 } }

/-! General lemmas about the string model. -/

theorem isPrefixOf_append_self : ∀ (b x : Str), b.isPrefixOf (b ++ x) = true
  | [], _ => by simp [List.isPrefixOf]
  | c :: bs, x => by
    simp only [List.cons_append, List.isPrefixOf, beq_self_eq_true,
      Bool.true_and]
    exact isPrefixOf_append_self bs x

theorem eq_append_of_isPrefixOf :
    ∀ {b s : Str}, b.isPrefixOf s = true → ∃ t, s = b ++ t
  | [], s, _ => ⟨s, rfl⟩
  | c :: bs, [], h => by simp [List.isPrefixOf] at h
  | c :: bs, d :: t, h => by
    simp only [List.isPrefixOf, Bool.and_eq_true, beq_iff_eq] at h
    obtain ⟨rfl, h2⟩ := h
    obtain ⟨t2, rfl⟩ := eq_append_of_isPrefixOf h2
    exact ⟨t2, rfl⟩

theorem contains_of_isPrefixOf {h n : Str} (hp : n.isPrefixOf h = true) :
    strContains h n = true := by
  cases h with
  | nil =>
    cases n with
    | nil => rfl
    | cons c t => simp [List.isPrefixOf] at hp
  | cons c t => simp [strContains, hp]

theorem contains_append_left (x : Str) {y n : Str} (hc : strContains y n = true) :
    strContains (x ++ y) n = true := by
  induction x with
  | nil => simpa using hc
  | cons c t ih => simp [strContains, ih]

theorem contains_of_contains_append {h a b : Str}
    (hab : strContains h (a ++ b) = true) : strContains h b = true := by
  induction h with
  | nil =>
    simp [strContains, List.isEmpty_iff] at hab ⊢
    exact hab.2
  | cons c t ih =>
    simp only [strContains, Bool.or_eq_true] at hab
    rcases hab with hpre | hrest
    · obtain ⟨rest, hrest⟩ := eq_append_of_isPrefixOf hpre
      have hb : strContains (b ++ rest) b = true :=
        contains_of_isPrefixOf (isPrefixOf_append_self b rest)
      have : strContains (a ++ (b ++ rest)) b = true := contains_append_left a hb
      rw [← List.append_assoc, ← hrest] at this
      exact this
    · simp [strContains, ih hrest]

theorem isPrefixOf_append_false :
    ∀ (b a x : Str), b.isPrefixOf a = false → a.isPrefixOf b = false →
      b.isPrefixOf (a ++ x) = false
  | [], a, x, h, _ => by simp [List.isPrefixOf] at h
  | c :: bs, [], x, _, h2 => by simp [List.isPrefixOf] at h2
  | c :: bs, d :: as, x, h, h2 => by
    by_cases hcd : c = d
    · subst hcd
      simp only [List.isPrefixOf, beq_self_eq_true, Bool.true_and] at h h2
      simp only [List.cons_append, List.isPrefixOf, beq_self_eq_true, Bool.true_and]
      exact isPrefixOf_append_false bs as x h h2
    · simp [List.cons_append, List.isPrefixOf, hcd]

theorem startsWith_append_false {a b : Str} (x : Str)
    (h1 : b.isPrefixOf a = false) (h2 : a.isPrefixOf b = false) :
    startsWith (a ++ x) b = false :=
  isPrefixOf_append_false b a x h1 h2

theorem startsWith_append_self (b x : Str) : startsWith (b ++ x) b = true :=
  isPrefixOf_append_self b x

/-! Lemmas about the systemd state classification. -/

theorem classifyActive_ne_deactivating {line : Str} {st : ServiceState}
    (h : st ≠ .deactivating) : classifyActive line st ≠ .deactivating := by
  unfold classifyActive
  split_ifs with h1 h2 h3 h4 h5
  · simp
  · simp
  · simp
  · simp
  · exfalso
    have hde : str "deactivating" = str "de" ++ str "activating" := by decide
    rw [hde] at h5
    have := contains_of_contains_append h5
    rw [this] at h4
    exact absurd h4 (by simp)
  · exact h

theorem applyPid_state (trimmed : Str) (acc : ServiceStatus) :
    (applyPid trimmed acc).state = acc.state := by
  unfold applyPid
  repeat' split
  all_goals rfl

theorem applyMem_state (trimmed : Str) (acc : ServiceStatus) :
    (applyMem trimmed acc).state = acc.state := by
  unfold applyMem
  repeat' split
  all_goals rfl

theorem applyActive_state (dateParse : Str → Option Int) (now : Int)
    (trimmed : Str) (acc : ServiceStatus) :
    (applyActive dateParse now trimmed acc).state =
      (if startsWith trimmed (str "Active:") then
        classifyActive trimmed acc.state
       else acc.state) := by
  unfold applyActive
  repeat' split
  all_goals rfl

theorem statusFold_state (dateParse : Str → Option Int) (now : Int)
    (acc : ServiceStatus) (line : Str) :
    (statusFold dateParse now acc line).state =
      (if startsWith (trimStr line) (str "Active:") then
        classifyActive (trimStr line) acc.state
       else acc.state) := by
  unfold statusFold
  rw [applyMem_state, applyPid_state, applyActive_state]

theorem parse_state_never_deactivating (dateParse : Str → Option Int)
    (now : Int) (serviceName output : Str) :
    (parseStatusOutput dateParse now serviceName output).state ≠ .deactivating := by
  unfold parseStatusOutput
  generalize splitOnChar '\n' output = lines
  have inv : ∀ (ls : List Str) (acc : ServiceStatus), acc.state ≠ .deactivating →
      (ls.foldl (statusFold dateParse now) acc).state ≠ .deactivating := by
    intro ls
    induction ls with
    | nil => intro acc h; simpa using h
    | cons l t ih =>
      intro acc h
      simp only [List.foldl_cons]
      apply ih
      rw [statusFold_state]
      split_ifs
      · exact classifyActive_ne_deactivating h
      · exact h
  exact inv lines _ (by simp)

/-- C4: parseStatusOutput never produces the deactivating state — the
substring test for activating precedes the one for deactivating and the
latter is a substring-superset of the former, so the deactivating branch is
dead code — and in particular the failing input, an Active line announcing
deactivation, is classified as activating. -/
theorem active_line_deactivating_misparsed :
    (∀ (dateParse : Str → Option Int) (now : Int) (serviceName output : Str),
      (parseStatusOutput dateParse now serviceName output).state ≠
        ServiceState.deactivating) ∧
    (parseStatusOutput (fun _ => none) 0 (str "svc")
        (str "   Active: deactivating (stop-sigterm)")).state =
      ServiceState.activating :=
  ⟨parse_state_never_deactivating, by decide⟩

/-- C6: both config generators are pure functions of the service identifier
and the descriptor, hence two calls with the same inputs yield identical
text. -/
theorem generateConfig_deterministic (logDir serviceName : Str)
    (app : NormalizedAppConfig) :
    generateUnitFile app = generateUnitFile app ∧
    launchdGenerateConfig logDir serviceName app =
      launchdGenerateConfig logDir serviceName app :=
  ⟨rfl, rfl⟩

/-- C9 counterexample: the validator rejects a descriptor whose restart
policy is spelled never. -/
theorem restart_policy_never_rejected :
    isValidRestartPolicy (str "never") = false := by decide

/-- C9 amended: the restart policy field admits exactly always, on-failure,
on-abnormal and no; the accepted spelling of the no-restart policy is no,
and never is rejected. -/
theorem restart_policy_enum :
    (∀ s : Str, isValidRestartPolicy s = true ↔
      s = str "always" ∨ s = str "on-failure" ∨ s = str "on-abnormal" ∨
        s = str "no") ∧
    isValidRestartPolicy (str "no") = true ∧
    isValidRestartPolicy (str "never") = false := by
  refine ⟨fun s => ?_, by decide, by decide⟩
  rw [isValidRestartPolicy, List.elem_iff]
  simp [VALID_RESTART_POLICIES, or_assoc]

/-- C10: deriving a service identifier and recovering the app name
round-trip for every app name and every prefix. -/
theorem service_name_round_trip (appName pfx : Str) :
    getAppName (getServiceName appName pfx) pfx = appName := by
  unfold getAppName getServiceName startsWith
  rw [isPrefixOf_append_self]
  simp

/-! Lemmas about the batch engine. -/

theorem batchTry_shape (exec : Str → NormalizedAppConfig → Except Str Unit)
    (getStatus : Str → Except Str ServiceStatus)
    (successStates : List ServiceState) (name : Str) (app : NormalizedAppConfig) :
    (batchTry exec getStatus successStates name app).name = name ∧
    (batchTry exec getStatus successStates name app).skipped = false := by
  unfold batchTry
  repeat' split
  all_goals simp

theorem batchStep_ok_shape {shouldSkip exec getStatus successStates svc r}
    (h : batchStep shouldSkip exec getStatus successStates svc = .ok r) :
    r.name = svc.1 ∧ (r.skipped = true → r.success = false) := by
  rcases shouldSkip with _ | f <;> simp only [batchStep] at h
  · obtain rfl : batchTry exec getStatus successStates svc.1 svc.2 = r := by
      simpa using h
    obtain ⟨h1, h2⟩ := batchTry_shape exec getStatus successStates svc.1 svc.2
    exact ⟨h1, by simp [h2]⟩
  · rcases hf : f svc.1 svc.2 with e | b
    · rw [hf] at h
      simp at h
    · rw [hf] at h
      rcases b with _ | _
      · simp at h
        obtain rfl := h.symm
        obtain ⟨h1, h2⟩ := batchTry_shape exec getStatus successStates svc.1 svc.2
        exact ⟨h1, by simp [h2]⟩
      · simp at h
        obtain rfl := h.symm
        exact ⟨rfl, by simp⟩

theorem mapExcept_ok_forall {f : α → Except Str β} {P : α → β → Prop}
    (hP : ∀ a b, f a = .ok b → P a b) :
    ∀ {l : List α} {rs : List β}, mapExcept f l = .ok rs → List.Forall₂ P l rs := by
  intro l
  induction l with
  | nil =>
    intro rs h
    obtain rfl : ([] : List β) = rs := by simpa [mapExcept] using h
    exact List.Forall₂.nil
  | cons x xs ih =>
    intro rs h
    unfold mapExcept at h
    rcases hx : f x with e | y <;> rw [hx] at h
    · simp at h
    · rcases hxs : mapExcept f xs with e | ys <;> rw [hxs] at h
      · simp at h
      · simp at h
        obtain rfl := h.symm
        exact List.Forall₂.cons (hP x y hx) (ih hxs)

theorem forall₂_map_eq {P : α → β → Prop} (g : α → γ) (k : β → γ)
    (hPk : ∀ a b, P a b → k b = g a) :
    ∀ {l : List α} {rs : List β}, List.Forall₂ P l rs → rs.map k = l.map g := by
  intro l rs h
  induction h with
  | nil => rfl
  | cons hab _ ih => simp [ih, hPk _ _ hab]

theorem forall₂_mem_right {P : α → β → Prop} {Q : β → Prop}
    (hQ : ∀ a b, P a b → Q b) :
    ∀ {l : List α} {rs : List β}, List.Forall₂ P l rs → ∀ r ∈ rs, Q r := by
  intro l rs h
  induction h with
  | nil => simp
  | cons hab _ ih =>
    intro r hr
    rcases List.mem_cons.mp hr with rfl | hr2
    · exact hQ _ _ hab
    · exact ih r hr2

theorem summarize_counts {rs : List BatchResult}
    (h : ∀ r ∈ rs, r.skipped = true → r.success = false) :
    (summarizeBatch rs).succeeded + (summarizeBatch rs).failed +
      (summarizeBatch rs).skipped = rs.length := by
  unfold summarizeBatch
  induction rs with
  | nil => rfl
  | cons r t ih =>
    have hr := h r (by simp)
    have ht := ih (fun x hx => h x (by simp [hx]))
    simp only [List.filter_cons, List.length_cons]
    rcases hsk : r.skipped with _ | _ <;> rcases hsu : r.success with _ | _ <;>
      simp_all <;> omega

theorem mapExcept_append {f : α → Except Str β} :
    ∀ {l₁ l₂ : List α} {rs : List β}, mapExcept f (l₁ ++ l₂) = .ok rs →
      ∃ rs₁ rs₂, mapExcept f l₁ = .ok rs₁ ∧ mapExcept f l₂ = .ok rs₂ ∧
        rs = rs₁ ++ rs₂ := by
  intro l₁
  induction l₁ with
  | nil =>
    intro l₂ rs h
    exact ⟨[], rs, rfl, by simpa using h, rfl⟩
  | cons x xs ih =>
    intro l₂ rs h
    rw [List.cons_append] at h
    unfold mapExcept at h
    rcases hx : f x with e | y <;> rw [hx] at h
    · simp at h
    · rcases hxs : mapExcept f (xs ++ l₂) with e | ys <;> rw [hxs] at h
      · simp at h
      · simp at h
        obtain rfl := h.symm
        obtain ⟨rs₁, rs₂, h1, h2, rfl⟩ := ih hxs
        refine ⟨y :: rs₁, rs₂, ?_, h2, rfl⟩
        unfold mapExcept
        rw [hx, h1]

/-- C1: whenever executeBatch returns, the summary counts satisfy
succeeded + failed + skipped = N, the results list has length N and carries
the service names in input order, and no result is marked both skipped and
successful. -/
theorem batch_summary_invariant
    (services : List (Str × NormalizedAppConfig))
    (shouldSkip : Option (Str → NormalizedAppConfig → Except Str Bool))
    (exec : Str → NormalizedAppConfig → Except Str Unit)
    (getStatus : Str → Except Str ServiceStatus)
    (successStatesOpt : Option (List ServiceState))
    (summary : BatchSummary)
    (h : executeBatch services shouldSkip exec getStatus successStatesOpt =
      .ok summary) :
    summary.succeeded + summary.failed + summary.skipped = services.length ∧
    summary.results.length = services.length ∧
    summary.results.map (fun r => r.name) = services.map (fun p => p.1) ∧
    ∀ r ∈ summary.results, ¬(r.skipped = true ∧ r.success = true) := by
  unfold executeBatch at h
  rcases he : mapExcept (batchStep shouldSkip exec getStatus
      (successStatesOpt.getD defaultSuccessStates)) services with e | rs <;>
    rw [he] at h
  · simp at h
  · simp at h
    obtain rfl := h.symm
    have hF := mapExcept_ok_forall
      (P := fun svc r => r.name = svc.1 ∧ (r.skipped = true → r.success = false))
      (fun a b hb => batchStep_ok_shape hb) he
    have hflags : ∀ r ∈ rs, r.skipped = true → r.success = false :=
      forall₂_mem_right (fun a b hab => hab.2) hF
    have hlen : services.length = rs.length := hF.length_eq
    refine ⟨?_, ?_, ?_, ?_⟩
    · rw [hlen]
      exact summarize_counts hflags
    · simpa [summarizeBatch] using hlen.symm
    · exact forall₂_map_eq (fun p => p.1) (fun r => r.name)
        (fun a b hab => hab.1) hF
    · intro r hr hcontra
      exact absurd (hflags r hr hcontra.1) (by simp [hcontra.2])

/-- Witness for C1 at a concrete two-service batch. -/
theorem batch_summary_invariant_witness :
    demoSummaryTwo.succeeded + demoSummaryTwo.failed + demoSummaryTwo.skipped =
      demoServicesTwo.length ∧
    demoSummaryTwo.results.length = demoServicesTwo.length ∧
    demoSummaryTwo.results.map (fun r => r.name) =
      demoServicesTwo.map (fun p => p.1) ∧
    ∀ r ∈ demoSummaryTwo.results, ¬(r.skipped = true ∧ r.success = true) :=
  batch_summary_invariant demoServicesTwo none demoExec demoStatus none
    demoSummaryTwo rfl

theorem batchTry_error {exec : Str → NormalizedAppConfig → Except Str Unit}
    {getStatus : Str → Except Str ServiceStatus}
    {successStates : List ServiceState} {name : Str} {app : NormalizedAppConfig}
    {msg : Str} (hexec : exec name app = .error msg) :
    batchTry exec getStatus successStates name app =
      { name := name, success := false, skipped := false, error := some msg } := by
  unfold batchTry
  rw [show (do
      exec name app
      getStatus app.serviceName : Except Str ServiceStatus) =
        Except.error msg by
    simp [hexec, Bind.bind, Except.bind]]

/-- C2: when the caller-supplied operation throws for the service between
pre and post, executeBatch records a non-skipped failure carrying the
message for that service, and the services after it are still attempted,
their results being exactly those of running the same step on the tail. -/
theorem batch_failure_isolation
    (pre post : List (Str × NormalizedAppConfig)) (n : Str)
    (a : NormalizedAppConfig)
    (shouldSkip : Option (Str → NormalizedAppConfig → Except Str Bool))
    (exec : Str → NormalizedAppConfig → Except Str Unit)
    (getStatus : Str → Except Str ServiceStatus)
    (successStatesOpt : Option (List ServiceState)) (msg : Str)
    (summary : BatchSummary)
    (hss : match shouldSkip with
      | none => True
      | some f => f n a = .ok false)
    (hexec : exec n a = .error msg)
    (h : executeBatch (pre ++ (n, a) :: post) shouldSkip exec getStatus
      successStatesOpt = .ok summary) :
    ∃ rsPre rsPost,
      mapExcept (batchStep shouldSkip exec getStatus
        (successStatesOpt.getD defaultSuccessStates)) pre = .ok rsPre ∧
      mapExcept (batchStep shouldSkip exec getStatus
        (successStatesOpt.getD defaultSuccessStates)) post = .ok rsPost ∧
      summary.results = rsPre ++
        ({ name := n, success := false, skipped := false, error := some msg } :
          BatchResult) :: rsPost := by
  unfold executeBatch at h
  rcases he : mapExcept (batchStep shouldSkip exec getStatus
      (successStatesOpt.getD defaultSuccessStates)) (pre ++ (n, a) :: post)
    with e | rs <;> rw [he] at h
  · simp at h
  · simp at h
    obtain rfl := h.symm
    obtain ⟨rsPre, rsMid, h1, h2, rfl⟩ := mapExcept_append he
    have hstep : batchStep shouldSkip exec getStatus
        (successStatesOpt.getD defaultSuccessStates) (n, a) =
        .ok { name := n, success := false, skipped := false, error := some msg } := by
      rcases shouldSkip with _ | f <;> simp only [batchStep]
      · rw [batchTry_error hexec]
      · rw [show f (n, a).1 (n, a).2 = .ok false from hss]
        rw [batchTry_error hexec]
    unfold mapExcept at h2
    rw [hstep] at h2
    rcases hpost : mapExcept (batchStep shouldSkip exec getStatus
        (successStatesOpt.getD defaultSuccessStates)) post with e | rsPost <;>
      rw [hpost] at h2
    · simp at h2
    · simp at h2
      obtain rfl := h2.symm
      exact ⟨rsPre, rsPost, h1, rfl, by simp [summarizeBatch]⟩

/-- Witness for C2: a single-service batch whose operation throws. -/
theorem batch_failure_isolation_witness :
    ∃ rsPre rsPost,
      mapExcept (batchStep none (fun _ _ => .error (str "Connection failed"))
        demoStatus ((none : Option (List ServiceState)).getD defaultSuccessStates))
        [] = .ok rsPre ∧
      mapExcept (batchStep none (fun _ _ => .error (str "Connection failed"))
        demoStatus ((none : Option (List ServiceState)).getD defaultSuccessStates))
        [] = .ok rsPost ∧
      ({ total := 1, succeeded := 0, failed := 1, skipped := 0
       , results := [{ name := str "api", success := false, skipped := false
                     , error := some (str "Connection failed") }] } :
          BatchSummary).results = rsPre ++
        ({ name := str "api", success := false, skipped := false
         , error := some (str "Connection failed") } : BatchResult) :: rsPost :=
  batch_failure_isolation [] [] (str "api") demoApp none
    (fun _ _ => .error (str "Connection failed")) demoStatus none
    (str "Connection failed") _ trivial rfl rfl

/-- C3: a true answer from shouldSkip yields the skip record for that service
no matter what the operation or the status fetch would do — so neither is
invoked — and the batch continues with the remaining services exactly as if
they were the whole input. -/
theorem batch_skip_precedence
    (f : Str → NormalizedAppConfig → Except Str Bool) (n : Str)
    (a : NormalizedAppConfig) (rest : List (Str × NormalizedAppConfig))
    (exec : Str → NormalizedAppConfig → Except Str Unit)
    (getStatus : Str → Except Str ServiceStatus)
    (successStatesOpt : Option (List ServiceState))
    (hskip : f n a = .ok true) :
    (∀ (exec2 : Str → NormalizedAppConfig → Except Str Unit)
       (getStatus2 : Str → Except Str ServiceStatus),
      batchStep (some f) exec2 getStatus2
        (successStatesOpt.getD defaultSuccessStates) (n, a) =
        .ok { name := n, success := false, skipped := true }) ∧
    executeBatch ((n, a) :: rest) (some f) exec getStatus successStatesOpt =
      (match mapExcept (batchStep (some f) exec getStatus
          (successStatesOpt.getD defaultSuccessStates)) rest with
       | .ok rs => .ok (summarizeBatch
          (({ name := n, success := false, skipped := true } : BatchResult) :: rs))
       | .error e => .error e) := by
  have hstep : ∀ (exec2 : Str → NormalizedAppConfig → Except Str Unit)
      (getStatus2 : Str → Except Str ServiceStatus),
      batchStep (some f) exec2 getStatus2
        (successStatesOpt.getD defaultSuccessStates) (n, a) =
        .ok { name := n, success := false, skipped := true } := by
    intro exec2 getStatus2
    simp only [batchStep]
    rw [show f (n, a).1 (n, a).2 = .ok true from hskip]
  refine ⟨hstep, ?_⟩
  unfold executeBatch
  conv_lhs => rw [mapExcept]
  rw [hstep exec getStatus]
  rcases hrest : mapExcept (batchStep (some f) exec getStatus
      (successStatesOpt.getD defaultSuccessStates)) rest with e | rs <;> simp

/-- Witness for C3: a skip-everything predicate on a one-service batch. -/
theorem batch_skip_precedence_witness :
    (∀ (exec2 : Str → NormalizedAppConfig → Except Str Unit)
       (getStatus2 : Str → Except Str ServiceStatus),
      batchStep (some (fun _ _ => .ok true)) exec2 getStatus2
        ((none : Option (List ServiceState)).getD defaultSuccessStates)
        (str "api", demoApp) =
        .ok { name := str "api", success := false, skipped := true }) ∧
    executeBatch [(str "api", demoApp)] (some (fun _ _ => .ok true)) demoExec
      demoStatus none =
      (match mapExcept (batchStep (some (fun _ _ => .ok true)) demoExec demoStatus
          ((none : Option (List ServiceState)).getD defaultSuccessStates)) [] with
       | .ok rs => .ok (summarizeBatch
          (({ name := str "api", success := false, skipped := true } :
            BatchResult) :: rs))
       | .error e => .error e) :=
  batch_skip_precedence (fun _ _ => .ok true) (str "api") demoApp [] demoExec
    demoStatus none rfl

/-- C5: on the first line containing the label, a dash pid with status code
zero parses to inactive, a dash pid with any nonzero status code to failed,
and a numeric pid to active carrying that pid; a label absent from the whole
listing parses to inactive. -/
theorem parseListOutput_spec (serviceName label output : Str) :
    (∀ line p0 s rest,
        (splitOnChar '\n' output).find? (fun l => strContains l label) =
          some line →
        splitWsTrim line = p0 :: s :: rest →
        ((p0 = str "-" → parseIntJS s = some 0 →
           parseListOutput serviceName label output =
             { name := serviceName, state := .inactive, pid := none }) ∧
         (∀ z : Int, p0 = str "-" → parseIntJS s = some z → z ≠ 0 →
           (parseListOutput serviceName label output).state = .failed) ∧
         (∀ m : Int, p0 ≠ str "-" → parseIntJS p0 = some m →
           (parseListOutput serviceName label output).state = .active ∧
           (parseListOutput serviceName label output).pid = some m))) ∧
    ((∀ l ∈ splitOnChar '\n' output, strContains l label = false) →
        parseListOutput serviceName label output =
          { name := serviceName, state := .inactive, pid := none }) := by
  constructor
  · intro line p0 s rest hfind hp
    refine ⟨?_, ?_, ?_⟩
    · intro h0 hs0
      unfold parseListOutput
      rw [hfind]
      simp [hp, h0, hs0]
    · intro z h0 hsz hz
      unfold parseListOutput
      rw [hfind]
      simp [hp, h0, hsz, hz]
    · intro m h0 hm
      unfold parseListOutput
      rw [hfind]
      simp [hp, h0, hm]
  · intro hnone
    unfold parseListOutput
    rw [List.find?_eq_none.mpr (by intro l hl; simp [hnone l hl])]

/-- Witness for C5: the two spec example lines and an absent label. -/
theorem parseListOutput_spec_witness :
    (parseListOutput (str "api") (str "com.bunman.api")
        (str "12345\t0\tcom.bunman.api")).state = .active ∧
    (parseListOutput (str "api") (str "com.bunman.api")
        (str "12345\t0\tcom.bunman.api")).pid = some 12345 ∧
    parseListOutput (str "stopped") (str "com.bunman.stopped")
        (str "-\t0\tcom.bunman.stopped") =
      { name := str "stopped", state := .inactive, pid := none } ∧
    (parseListOutput (str "bad") (str "com.bunman.bad")
        (str "-\t78\tcom.bunman.bad")).state = .failed ∧
    parseListOutput (str "gone") (str "com.bunman.gone")
        (str "12345\t0\tcom.bunman.api") =
      { name := str "gone", state := .inactive, pid := none } := by
  have h1 := ((parseListOutput_spec (str "api") (str "com.bunman.api")
      (str "12345\t0\tcom.bunman.api")).1
    (str "12345\t0\tcom.bunman.api") (str "12345") (str "0")
      [str "com.bunman.api"] (by decide) (by decide)).2.2 12345 (by decide)
      (by decide)
  have h2 := ((parseListOutput_spec (str "stopped") (str "com.bunman.stopped")
      (str "-\t0\tcom.bunman.stopped")).1
    (str "-\t0\tcom.bunman.stopped") (str "-") (str "0")
      [str "com.bunman.stopped"] (by decide) (by decide)).1 (by decide)
      (by decide)
  have h3 := ((parseListOutput_spec (str "bad") (str "com.bunman.bad")
      (str "-\t78\tcom.bunman.bad")).1
    (str "-\t78\tcom.bunman.bad") (str "-") (str "78")
      [str "com.bunman.bad"] (by decide) (by decide)).2.1 78 (by decide)
      (by decide) (by decide)
  have h4 := (parseListOutput_spec (str "gone") (str "com.bunman.gone")
      (str "12345\t0\tcom.bunman.api")).2 (by decide)
  exact ⟨h1.1, h1.2, h2, h3, h4⟩

/-! Lemmas computing the limit lines of the unit serializer. -/

theorem filter_optLine_none (p : Str → Bool) (f : α → Str) (o : Option α)
    (h : ∀ v, p (f v) = false) : (optLine f o).filter p = [] := by
  cases o <;> simp [optLine, h]

theorem filter_optLine_all (p : Str → Bool) (f : α → Str) (o : Option α)
    (h : ∀ v, p (f v) = true) : (optLine f o).filter p = optLine f o := by
  cases o <;> simp [optLine, h]

theorem filter_map_none (p : Str → Bool) (f : Str → Str) (l : List Str)
    (h : ∀ e, p (f e) = false) : (l.map f).filter p = [] := by
  induction l <;> simp [h, *]

theorem limitLines_skeleton (app : NormalizedAppConfig) (key : Str)
    (hDesc : ∀ v : Str, startsWith (str "Description=" ++ v) key = false)
    (hAfter : ∀ v : List Str, startsWith (str "After=" ++ joinSpace v) key = false)
    (hReq : ∀ v : List Str, startsWith (str "Requires=" ++ joinSpace v) key = false)
    (hWd : ∀ v : Str, startsWith (str "WorkingDirectory=" ++ v) key = false)
    (hExec : ∀ v : Str, startsWith (str "ExecStart=" ++ v) key = false)
    (hRestart : ∀ v : Str, startsWith (str "Restart=" ++ v) key = false)
    (hRestartSec : ∀ v : Int, startsWith (str "RestartSec=" ++ intStr v) key = false)
    (hEnv : ∀ v : Str, startsWith (str "Environment=" ++ v) key = false)
    (hEnvFile : ∀ v : Str, startsWith (str "EnvironmentFile=" ++ v) key = false)
    (hUser : ∀ v : Str, startsWith (str "User=" ++ v) key = false)
    (hGroup : ∀ v : Str, startsWith (str "Group=" ++ v) key = false)
    (hFix1 : startsWith (str "[Unit]") key = false)
    (hFix2 : startsWith ([] : Str) key = false)
    (hFix3 : startsWith (str "[Service]") key = false)
    (hFix4 : startsWith (str "Type=" ++ str "simple") key = false)
    (hFix5 : startsWith (str "StandardOutput=" ++ str "journal") key = false)
    (hFix6 : startsWith (str "StandardError=" ++ str "journal") key = false)
    (hFix7 : startsWith (str "[Install]") key = false)
    (hFix8 : startsWith (str "WantedBy=" ++ joinSpace [str "multi-user.target"])
      key = false) :
    limitLines key app =
      ((optLine (fun v => str "MemoryMax=" ++ v)
          (app.limits.memory.bind (fun m =>
            if m = 0 then none else some (intStr m ++ str "M")))).filter
        (fun s => startsWith s key)) ++
      ((optLine (fun v => str "CPUQuota=" ++ v)
          (app.limits.cpu.bind (fun c =>
            if c = 0 then none else some (intStr c ++ str "%")))).filter
        (fun s => startsWith s key)) ++
      ((optLine (fun v => str "LimitNOFILE=" ++ intStr v)
          app.limits.nofile).filter (fun s => startsWith s key)) ++
      ((optLine (fun v => str "LimitNPROC=" ++ intStr v)
          app.limits.nproc).filter (fun s => startsWith s key)) := by
  unfold limitLines serializeUnitSections buildUnit
  simp only [List.filter_append]
  rw [filter_optLine_none (fun s => startsWith s key)
      (fun l => str "After=" ++ joinSpace l) _ hAfter,
    filter_optLine_none (fun s => startsWith s key)
      (fun l => str "Requires=" ++ joinSpace l) _ hReq,
    filter_optLine_none (fun s => startsWith s key)
      (fun f => str "EnvironmentFile=" ++ f) _ hEnvFile,
    filter_optLine_none (fun s => startsWith s key)
      (fun v => str "User=" ++ v) _ hUser,
    filter_optLine_none (fun s => startsWith s key)
      (fun v => str "Group=" ++ v) _ hGroup]
  rcases henv : formatEnvironment app.env with _ | envs
  · simp [List.filter_cons, hDesc, hWd, hExec, hRestart, hRestartSec, hFix1,
      hFix2, hFix3, hFix4, hFix5, hFix6, hFix7, hFix8]
  · rw [filter_map_none (fun s => startsWith s key)
      (fun e => str "Environment=" ++ e) envs hEnv]
    simp [List.filter_cons, hDesc, hWd, hExec, hRestart, hRestartSec, hFix1,
      hFix2, hFix3, hFix4, hFix5, hFix6, hFix7, hFix8]

theorem limitLines_memoryMax (app : NormalizedAppConfig) :
    limitLines (str "MemoryMax=") app =
      (match app.limits.memory with
       | some m => if m = 0 then [] else [str "MemoryMax=" ++ (intStr m ++ str "M")]
       | none => []) := by
  rw [limitLines_skeleton app (str "MemoryMax=")
    (fun v => startsWith_append_false v (by decide) (by decide))
    (fun v => startsWith_append_false (joinSpace v) (by decide) (by decide))
    (fun v => startsWith_append_false (joinSpace v) (by decide) (by decide))
    (fun v => startsWith_append_false v (by decide) (by decide))
    (fun v => startsWith_append_false v (by decide) (by decide))
    (fun v => startsWith_append_false v (by decide) (by decide))
    (fun v => startsWith_append_false (intStr v) (by decide) (by decide))
    (fun v => startsWith_append_false v (by decide) (by decide))
    (fun v => startsWith_append_false v (by decide) (by decide))
    (fun v => startsWith_append_false v (by decide) (by decide))
    (fun v => startsWith_append_false v (by decide) (by decide))
    (by decide) (by decide) (by decide) (by decide) (by decide) (by decide)
    (by decide) (by decide)]
  rw [filter_optLine_all (fun s => startsWith s (str "MemoryMax="))
      (fun v => str "MemoryMax=" ++ v) _ (fun v => startsWith_append_self _ v),
    filter_optLine_none (fun s => startsWith s (str "MemoryMax="))
      (fun v => str "CPUQuota=" ++ v) _
      (fun v => startsWith_append_false v (by decide) (by decide)),
    filter_optLine_none (fun s => startsWith s (str "MemoryMax="))
      (fun v => str "LimitNOFILE=" ++ intStr v) _
      (fun v => startsWith_append_false (intStr v) (by decide) (by decide)),
    filter_optLine_none (fun s => startsWith s (str "MemoryMax="))
      (fun v => str "LimitNPROC=" ++ intStr v) _
      (fun v => startsWith_append_false (intStr v) (by decide) (by decide))]
  rcases app.limits.memory with _ | m
  · simp [optLine]
  · by_cases hm : m = 0 <;> simp [optLine, hm]

theorem limitLines_cpuQuota (app : NormalizedAppConfig) :
    limitLines (str "CPUQuota=") app =
      (match app.limits.cpu with
       | some c => if c = 0 then [] else [str "CPUQuota=" ++ (intStr c ++ str "%")]
       | none => []) := by
  rw [limitLines_skeleton app (str "CPUQuota=")
    (fun v => startsWith_append_false v (by decide) (by decide))
    (fun v => startsWith_append_false (joinSpace v) (by decide) (by decide))
    (fun v => startsWith_append_false (joinSpace v) (by decide) (by decide))
    (fun v => startsWith_append_false v (by decide) (by decide))
    (fun v => startsWith_append_false v (by decide) (by decide))
    (fun v => startsWith_append_false v (by decide) (by decide))
    (fun v => startsWith_append_false (intStr v) (by decide) (by decide))
    (fun v => startsWith_append_false v (by decide) (by decide))
    (fun v => startsWith_append_false v (by decide) (by decide))
    (fun v => startsWith_append_false v (by decide) (by decide))
    (fun v => startsWith_append_false v (by decide) (by decide))
    (by decide) (by decide) (by decide) (by decide) (by decide) (by decide)
    (by decide) (by decide)]
  rw [filter_optLine_none (fun s => startsWith s (str "CPUQuota="))
      (fun v => str "MemoryMax=" ++ v) _
      (fun v => startsWith_append_false v (by decide) (by decide)),
    filter_optLine_all (fun s => startsWith s (str "CPUQuota="))
      (fun v => str "CPUQuota=" ++ v) _ (fun v => startsWith_append_self _ v),
    filter_optLine_none (fun s => startsWith s (str "CPUQuota="))
      (fun v => str "LimitNOFILE=" ++ intStr v) _
      (fun v => startsWith_append_false (intStr v) (by decide) (by decide)),
    filter_optLine_none (fun s => startsWith s (str "CPUQuota="))
      (fun v => str "LimitNPROC=" ++ intStr v) _
      (fun v => startsWith_append_false (intStr v) (by decide) (by decide))]
  rcases app.limits.cpu with _ | c
  · simp [optLine]
  · by_cases hc : c = 0 <;> simp [optLine, hc]

theorem limitLines_limitNOFILE (app : NormalizedAppConfig) :
    limitLines (str "LimitNOFILE=") app =
      (match app.limits.nofile with
       | some v => [str "LimitNOFILE=" ++ intStr v]
       | none => []) := by
  rw [limitLines_skeleton app (str "LimitNOFILE=")
    (fun v => startsWith_append_false v (by decide) (by decide))
    (fun v => startsWith_append_false (joinSpace v) (by decide) (by decide))
    (fun v => startsWith_append_false (joinSpace v) (by decide) (by decide))
    (fun v => startsWith_append_false v (by decide) (by decide))
    (fun v => startsWith_append_false v (by decide) (by decide))
    (fun v => startsWith_append_false v (by decide) (by decide))
    (fun v => startsWith_append_false (intStr v) (by decide) (by decide))
    (fun v => startsWith_append_false v (by decide) (by decide))
    (fun v => startsWith_append_false v (by decide) (by decide))
    (fun v => startsWith_append_false v (by decide) (by decide))
    (fun v => startsWith_append_false v (by decide) (by decide))
    (by decide) (by decide) (by decide) (by decide) (by decide) (by decide)
    (by decide) (by decide)]
  rw [filter_optLine_none (fun s => startsWith s (str "LimitNOFILE="))
      (fun v => str "MemoryMax=" ++ v) _
      (fun v => startsWith_append_false v (by decide) (by decide)),
    filter_optLine_none (fun s => startsWith s (str "LimitNOFILE="))
      (fun v => str "CPUQuota=" ++ v) _
      (fun v => startsWith_append_false v (by decide) (by decide)),
    filter_optLine_all (fun s => startsWith s (str "LimitNOFILE="))
      (fun v => str "LimitNOFILE=" ++ intStr v) _
      (fun v => startsWith_append_self _ (intStr v)),
    filter_optLine_none (fun s => startsWith s (str "LimitNOFILE="))
      (fun v => str "LimitNPROC=" ++ intStr v) _
      (fun v => startsWith_append_false (intStr v) (by decide) (by decide))]
  rcases app.limits.nofile with _ | v <;> simp [optLine]

theorem limitLines_limitNPROC (app : NormalizedAppConfig) :
    limitLines (str "LimitNPROC=") app =
      (match app.limits.nproc with
       | some v => [str "LimitNPROC=" ++ intStr v]
       | none => []) := by
  rw [limitLines_skeleton app (str "LimitNPROC=")
    (fun v => startsWith_append_false v (by decide) (by decide))
    (fun v => startsWith_append_false (joinSpace v) (by decide) (by decide))
    (fun v => startsWith_append_false (joinSpace v) (by decide) (by decide))
    (fun v => startsWith_append_false v (by decide) (by decide))
    (fun v => startsWith_append_false v (by decide) (by decide))
    (fun v => startsWith_append_false v (by decide) (by decide))
    (fun v => startsWith_append_false (intStr v) (by decide) (by decide))
    (fun v => startsWith_append_false v (by decide) (by decide))
    (fun v => startsWith_append_false v (by decide) (by decide))
    (fun v => startsWith_append_false v (by decide) (by decide))
    (fun v => startsWith_append_false v (by decide) (by decide))
    (by decide) (by decide) (by decide) (by decide) (by decide) (by decide)
    (by decide) (by decide)]
  rw [filter_optLine_none (fun s => startsWith s (str "LimitNPROC="))
      (fun v => str "MemoryMax=" ++ v) _
      (fun v => startsWith_append_false v (by decide) (by decide)),
    filter_optLine_none (fun s => startsWith s (str "LimitNPROC="))
      (fun v => str "CPUQuota=" ++ v) _
      (fun v => startsWith_append_false v (by decide) (by decide)),
    filter_optLine_none (fun s => startsWith s (str "LimitNPROC="))
      (fun v => str "LimitNOFILE=" ++ intStr v) _
      (fun v => startsWith_append_false (intStr v) (by decide) (by decide)),
    filter_optLine_all (fun s => startsWith s (str "LimitNPROC="))
      (fun v => str "LimitNPROC=" ++ intStr v) _
      (fun v => startsWith_append_self _ (intStr v))]
  rcases app.limits.nproc with _ | v <;> simp [optLine]

/-- C7 counterexample: a descriptor with a zero file-descriptor cap makes the
generator emit the line LimitNOFILE=0 — a limit key rendered with value
zero. -/
theorem limit_zero_rendered :
    str "LimitNOFILE=0" ∈ serializeUnitSections (buildUnit zeroNofileApp) ∧
    strContains (generateUnitFile zeroNofileApp) (str "LimitNOFILE=0") = true := by
  constructor <;> decide

/-- C7 amended: the generator maps each limit onto its native key with the
documented rendering — memory to MemoryMax with an M suffix, cpu to CPUQuota
with a percent suffix, the caps to LimitNOFILE and LimitNPROC — and an
absent limit yields no line; the memory and cpu keys are never rendered with
value zero (zero is omitted like absence), but a zero fd or process cap is
rendered as LimitNOFILE=0 or LimitNPROC=0, since only those two are guarded
by an undefined test rather than a truthiness test. -/
theorem limit_lines_mapping (app : NormalizedAppConfig) :
    limitLines (str "MemoryMax=") app =
      (match app.limits.memory with
       | some m => if m = 0 then [] else [str "MemoryMax=" ++ (intStr m ++ str "M")]
       | none => []) ∧
    limitLines (str "CPUQuota=") app =
      (match app.limits.cpu with
       | some c => if c = 0 then [] else [str "CPUQuota=" ++ (intStr c ++ str "%")]
       | none => []) ∧
    limitLines (str "LimitNOFILE=") app =
      (match app.limits.nofile with
       | some v => [str "LimitNOFILE=" ++ intStr v]
       | none => []) ∧
    limitLines (str "LimitNPROC=") app =
      (match app.limits.nproc with
       | some v => [str "LimitNPROC=" ++ intStr v]
       | none => []) :=
  ⟨limitLines_memoryMax app, limitLines_cpuQuota app,
    limitLines_limitNOFILE app, limitLines_limitNPROC app⟩

/-! Lemmas computing the Memory regex on lines of the canonical shape. -/

theorem isWs_false_of_isDigDot {c : Char} (h : isDigDot c = true) :
    isWs c = false := by
  cases hw : isWs c
  · rfl
  · exfalso
    simp only [isWs, Bool.or_eq_true, decide_eq_true_eq] at hw
    rcases hw with ((h1 | h1) | h1) | h1 <;> subst h1 <;> revert h <;> decide

theorem dropWhile_eq_self_of_head {p : Char → Bool} {s : Str} {c : Char}
    (h : s.head? = some c) (hp : p c = false) : s.dropWhile p = s := by
  cases s with
  | nil => simp at h
  | cons a t =>
    obtain rfl : a = c := by simpa using h
    simp [List.dropWhile, hp]

theorem trimStr_eq_self (c1 c2 : Char) {s : Str} (h1 : s.head? = some c1)
    (hc1 : isWs c1 = false) (h2 : s.reverse.head? = some c2)
    (hc2 : isWs c2 = false) : trimStr s = s := by
  unfold trimStr
  rw [dropWhile_eq_self_of_head h1 hc1, dropWhile_eq_self_of_head h2 hc2,
    List.reverse_reverse]

theorem takeWhile_append_all {p : Char → Bool} :
    ∀ {l : Str} (r : Str), (∀ c ∈ l, p c = true) →
      List.takeWhile p (l ++ r) = l ++ List.takeWhile p r := by
  intro l
  induction l with
  | nil => intro r _; rfl
  | cons c t ih =>
    intro r h
    have hc : p c = true := h c (by simp)
    simp only [List.cons_append, List.takeWhile_cons, hc, if_true]
    rw [ih r (fun x hx => h x (by simp [hx]))]

theorem splitOnChar_no_sep {sep : Char} :
    ∀ {s : Str}, (∀ c ∈ s, c ≠ sep) → splitOnChar sep s = [s] := by
  intro s
  induction s with
  | nil => intro; rfl
  | cons c t ih =>
    intro h
    have hc : ¬(c = sep) := h c (by simp)
    rw [splitOnChar, ih (fun x hx => h x (by simp [hx]))]
    simp [hc]

theorem memMatchHere_canonical (ds : Str) (u : Char) (hds : ds ≠ [])
    (hdd : ∀ c ∈ ds, isDigDot c = true) (hu : isDigDot u = false) :
    memMatchHere (str "Memory: " ++ (ds ++ [u])) =
      (if u = 'K' || u = 'M' || u = 'G' then some (ds, u) else none) := by
  have hL : str "Memory: " ++ (ds ++ [u]) =
      str "Memory:" ++ ([' '] ++ (ds ++ [u])) := by simp [str]
  unfold memMatchHere
  rw [hL, startsWith_append_self]
  simp only [if_true]
  rw [show (str "Memory:" ++ ([' '] ++ (ds ++ [u]))).drop 7 =
      [' '] ++ (ds ++ [u]) by
    rw [show (7 : Nat) = (str "Memory:").length from rfl, List.drop_left]]
  rcases ds with _ | ⟨d, ds'⟩
  · exact absurd rfl hds
  · have hdw : isWs d = false := isWs_false_of_isDigDot (hdd d (by simp))
    have hsp : isWs ' ' = true := by decide
    rw [show ([' '] ++ ((d :: ds') ++ [u])).dropWhile isWs =
        ((d :: ds') ++ [u]).dropWhile isWs by
      simp [List.dropWhile_cons, hsp]]
    rw [dropWhile_eq_self_of_head (by simp) hdw]
    rw [takeWhile_append_all [u] hdd]
    rw [show List.takeWhile isDigDot [u] = [] by simp [List.takeWhile, hu]]
    rw [List.append_nil]
    rw [show ((d :: ds') ++ [u]).drop (d :: ds').length = [u] from
      List.drop_left (d :: ds') [u]]
    simp

theorem memSearch_none_of_no_M {l : Str} (h : 'M' ∉ l) : memSearch l = none := by
  induction l with
  | nil => rfl
  | cons c t ih =>
    have hc : ¬(c = 'M') := fun hh => h (by simp [hh])
    have hmm : memMatchHere (c :: t) = none := by
      unfold memMatchHere
      rw [show startsWith (c :: t) (str "Memory:") = false by
        simp [startsWith, str, List.isPrefixOf]
        intro hMc
        exact absurd hMc.symm hc]
      simp
    rw [memSearch, hmm, ih (fun hm => h (by simp [hm]))]

theorem memSearch_canonical (ds : Str) (u : Char) (hds : ds ≠ [])
    (hdd : ∀ c ∈ ds, isDigDot c = true) (hu : isDigDot u = false) :
    memSearch (str "Memory: " ++ (ds ++ [u])) =
      (if u = 'K' || u = 'M' || u = 'G' then some (ds, u) else none) := by
  have hcons : str "Memory: " ++ (ds ++ [u]) =
      'M' :: (str "emory: " ++ (ds ++ [u])) := by simp [str]
  have hmm := memMatchHere_canonical ds u hds hdd hu
  by_cases hk : (u = 'K' || u = 'M' || u = 'G') = true
  · rw [hcons] at hmm ⊢
    rw [memSearch, hmm]
    simp [hk]
  · have huM : u ≠ 'M' := by
      intro hEq
      exact hk (by simp [hEq])
    rw [hcons] at hmm ⊢
    rw [memSearch, hmm]
    rw [if_neg hk]
    apply memSearch_none_of_no_M
    intro hmem
    simp only [str, List.mem_append, List.mem_cons] at hmem
    rcases hmem with hm1 | hm2 | hm3
    · revert hm1
      decide
    · have hM := hdd 'M' hm2
      revert hM
      decide
    · rcases hm3 with hm | hfalse
      · exact huM hm.symm
      · simp at hfalse

/-- The memory field computed by the parser on a one-line output of the
canonical Memory shape. -/
theorem parse_memory_canonical (dateParse : Str → Option Int) (now : Int)
    (serviceName : Str) (ds : Str) (u : Char) (hds : ds ≠ [])
    (hdd : ∀ c ∈ ds, isDigDot c = true) (hu : isDigDot u = false)
    (huW : isWs u = false) :
    (parseStatusOutput dateParse now serviceName
        (str "Memory: " ++ (ds ++ [u]))).memory =
      (if u = 'K' || u = 'M' || u = 'G' then
        (parseFloatQ ds).map (memScale u)
       else none) := by
  have hnosep : ∀ c ∈ str "Memory: " ++ (ds ++ [u]), c ≠ '\n' := by
    intro c hc
    simp only [str, List.mem_append, List.mem_cons] at hc
    rcases hc with h1 | h2 | h3
    · rcases h1 with rfl | rfl | rfl | rfl | rfl | rfl | rfl | rfl | h0
      all_goals first | decide | simp at h0
    · intro hEq
      subst hEq
      have := hdd '\n' h2
      simp [isDigDot] at this
    · rcases h3 with rfl | hfalse
      · intro hEq
        rw [hEq] at huW
        simp [isWs] at huW
      · simp at hfalse
  have htrim : trimStr (str "Memory: " ++ (ds ++ [u])) =
      str "Memory: " ++ (ds ++ [u]) := by
    apply trimStr_eq_self 'M' u
    · rw [show str "Memory: " ++ (ds ++ [u]) =
        'M' :: (str "emory: " ++ (ds ++ [u])) by simp [str]]
      rfl
    · rfl
    · rw [show str "Memory: " ++ (ds ++ [u]) =
        (str "Memory: " ++ ds) ++ [u] by simp]
      rw [List.reverse_append]
      rfl
    · exact huW
  have hact : startsWith (str "Memory: " ++ (ds ++ [u])) (str "Active:") = false :=
    startsWith_append_false _ (by decide) (by decide)
  have hpid : startsWith (str "Memory: " ++ (ds ++ [u]))
      (str "Main PID:") = false :=
    startsWith_append_false _ (by decide) (by decide)
  have hmem : startsWith (str "Memory: " ++ (ds ++ [u])) (str "Memory:") = true := by
    rw [show str "Memory: " ++ (ds ++ [u]) =
      str "Memory:" ++ ([' '] ++ (ds ++ [u])) by simp [str]]
    exact startsWith_append_self _ _
  unfold parseStatusOutput
  rw [splitOnChar_no_sep hnosep]
  simp only [List.foldl_cons, List.foldl_nil]
  unfold statusFold
  rw [htrim]
  simp only [applyActive, applyPid, applyMem, hact, hpid, hmem,
    Bool.false_eq_true, if_false, if_true]
  rw [memSearch_canonical ds u hds hdd hu]
  by_cases hk : (u = 'K' || u = 'M' || u = 'G') = true <;> simp [hk]

/-- C8 counterexample: on the line Memory: 45.2T the unit letter T is not
matched by the regex, so the memory field stays absent — the raw float does
not pass through. -/
theorem memory_unknown_unit_passthrough_refuted :
    (parseStatusOutput (fun _ => none) 0 (str "svc")
      (str "Memory: 45.2T")).memory = none ∧
    (parseStatusOutput (fun _ => none) 0 (str "svc")
      (str "Memory: 45.2T")).memory ≠ some ((452 : Rat) / 10) := by
  have h : (parseStatusOutput (fun _ => none) 0 (str "svc")
      (str "Memory: 45.2T")).memory = none := by decide
  exact ⟨h, by rw [h]; simp⟩

/-- C8 amended: on a Memory line carrying a float and a unit letter, K
multiplies by 1024, M by 1024 squared and G by 1024 cubed, while any other
unit letter fails the regex match — whose unit class admits only K, M and G
— and leaves the memory field absent; the switch's raw-value default branch
is unreachable. -/
theorem memory_line_conversion
    (dateParse : Str → Option Int) (now : Int) (serviceName : Str)
    (ds : Str) (u : Char) (q : Rat)
    (hds : ds ≠ []) (hdd : ∀ c ∈ ds, isDigDot c = true)
    (hu : isDigDot u = false) (huW : isWs u = false)
    (hq : parseFloatQ ds = some q) :
    (u = 'K' → (parseStatusOutput dateParse now serviceName
        (str "Memory: " ++ (ds ++ [u]))).memory = some (q * 1024)) ∧
    (u = 'M' → (parseStatusOutput dateParse now serviceName
        (str "Memory: " ++ (ds ++ [u]))).memory = some (q * 1024 * 1024)) ∧
    (u = 'G' → (parseStatusOutput dateParse now serviceName
        (str "Memory: " ++ (ds ++ [u]))).memory =
          some (q * 1024 * 1024 * 1024)) ∧
    (u ≠ 'K' → u ≠ 'M' → u ≠ 'G' →
      (parseStatusOutput dateParse now serviceName
        (str "Memory: " ++ (ds ++ [u]))).memory = none) := by
  have hp := parse_memory_canonical dateParse now serviceName ds u hds hdd hu huW
  refine ⟨?_, ?_, ?_, ?_⟩
  · intro hEq
    subst hEq
    rw [hp]
    simp [hq, memScale]
  · intro hEq
    subst hEq
    rw [hp]
    simp only [hq]
    simp [memScale]
  · intro hEq
    subst hEq
    rw [hp]
    simp only [hq]
    simp [memScale]
  · intro h1 h2 h3
    rw [hp]
    simp [h1, h2, h3]

/-- Witness for C8: the spec example Memory: 45.2M converts to
45.2 times 1024 squared bytes, and the unrecognized unit T yields no
memory value. -/
theorem memory_line_conversion_witness :
    (parseStatusOutput (fun _ => none) 0 (str "svc")
        (str "Memory: " ++ (str "45.2" ++ ['M']))).memory =
      some ((452 : Rat) / 10 * 1024 * 1024) ∧
    (parseStatusOutput (fun _ => none) 0 (str "svc")
        (str "Memory: " ++ (str "45.2" ++ ['T']))).memory = none := by
  have hq : parseFloatQ (str "45.2") = some ((452 : Rat) / 10) := by
    have h2 : parseFloatParts (str "45.2") = some (452, 1) := by decide
    simp only [parseFloatQ, h2, Option.map_some]
    norm_num
  constructor
  · exact (memory_line_conversion (fun _ => none) 0 (str "svc") (str "45.2")
      'M' ((452 : Rat) / 10) (by decide) (by decide) (by decide) (by decide)
      hq).2.1 rfl
  · exact (memory_line_conversion (fun _ => none) 0 (str "svc") (str "45.2")
      'T' ((452 : Rat) / 10) (by decide) (by decide) (by decide) (by decide)
      hq).2.2.2 (by decide) (by decide) (by decide)

end Bunman
